import Mathlib

/-!
Shallow embedding of the `promise-batcher` library (`index.js` and its
TypeScript source).  The `Batcher` class collects individually submitted
requests into batches, dispatches each batch through a user supplied
batching function, and distributes the results (values, per-item errors,
or the RETRY token) back to the per-request result slots.

Modelling conventions:
* JS numbers appearing in the options are modelled as rationals `ℚ`;
  `maxBatchSize`, which defaults to `Infinity`, is `Option ℚ` with `none`
  standing for `Infinity`.
* Result slots (`p-defer` deferreds) are identified by natural numbers;
  settling a slot is recorded as an explicit event.
* The asynchronous control flow is broken at its suspension points
  (the queuing-delay timer, the delay-function promise, and the batching
  function's promise) into a small-step system whose scheduler and
  environment choices over-approximate the JS event loop.
-/

/-- Mutable per-instance state of a `Batcher` (the fields of the class
other than the immutable configuration).  `_inputQueue` and `_outputQueue`
are the paired pending queues; `_outputQueue` holds slot identifiers.
`_waitTimeout` is `true` while the queuing-delay timer is armed. -/
structure BState (I : Type) where
  inputQueue : List I
  outputQueue : List Nat
  waiting : Bool
  waitTimeout : Bool
  activePromiseCount : Nat
  immediateCount : Nat
deriving Repr, DecidableEq

/-- Immutable configuration produced by the constructor.
`maxBatchSize = none` models the default `Infinity`. -/
structure BatcherConfig where
  maxBatchSize : Option ℚ
  queuingDelay : ℚ
  queuingThresholds : List ℚ
deriving Repr, DecidableEq

/-- The options bundle accepted by the constructor; `none` models an
absent (`undefined`/`null`) option. -/
structure BatcherOptions where
  maxBatchSize : Option ℚ
  queuingDelay : Option ℚ
  queuingThresholds : Option (List ℚ)
deriving Repr, DecidableEq

/-- Constructor validation (`new Batcher(options)`): checks
`queuingThresholds`, `maxBatchSize` and `queuingDelay` in the source's
order, throwing (modelled as `Except.error` carrying the `Error` message)
on the first violation, and otherwise normalizes the configuration
(thresholds default to `[1]`, `maxBatchSize` to `Infinity`,
`queuingDelay` to `1`). -/
def Batcher.construct (o : BatcherOptions) : Except String BatcherConfig := do
  let thresholds ← match o.queuingThresholds with
    | some ts =>
      if ts.length = 0 then
        .error "options.queuingThresholds must contain at least one number"
      else if ts.any (fun n => n < 1) then
        .error "options.queuingThresholds must only contain numbers greater than 0"
      else
        .ok ts
    | none => .ok [1]
  let maxBatchSize ← match o.maxBatchSize with
    | some m =>
      if m < 1 then .error "options.maxBatchSize must be greater than 0"
      else .ok (some m)
    | none => .ok none
  let queuingDelay ← match o.queuingDelay with
    | some d =>
      if d < 0 then .error "options.queuingDelay must be greater than or equal to 0"
      else .ok d
    | none => .ok 1
  return { maxBatchSize := maxBatchSize, queuingDelay := queuingDelay,
           queuingThresholds := thresholds }

/-- JS array indexing `l[i]` for a possibly out-of-range signed index:
`undefined` is `none`. -/
def jsIndexGet (l : List ℚ) (i : Int) : Option ℚ :=
  if h : 0 ≤ i ∧ i.toNat < l.length then some (l.get ⟨i.toNat, h.2⟩) else none

/-- JS comparison `x < y` where `y` may be `undefined` (a comparison with
`undefined` is `false`). -/
def jsNumLt (x : ℚ) : Option ℚ → Bool
  | some y => decide (x < y)
  | none => false

/-- The queuing-threshold guard of `_trigger`:
`this._inputQueue.length < this._queuingThresholds[thresholdIndex]` with
`thresholdIndex = Math.min(this._activePromiseCount, this._queuingThresholds.length - 1)`. -/
def belowThreshold (cfg : BatcherConfig) (st : BState I) : Bool :=
  jsNumLt (st.inputQueue.length : ℚ)
    (jsIndexGet cfg.queuingThresholds
      (min (st.activePromiseCount : Int) ((cfg.queuingThresholds.length : Int) - 1)))

/-- JS comparison `this._inputQueue.length >= this._maxBatchSize`
(`false` against the default `Infinity`). -/
def jsGeMax (len : Nat) : Option ℚ → Bool
  | some q => decide ((len : ℚ) ≥ q)
  | none => false

/-- What a call to `_trigger` decided: returned without effect, committed
a batch to run immediately (`this._waiting = true`, timer cleared, `_run`
invoked), or armed the queuing-delay timer. -/
inductive TriggerOutcome where
  | noop
  | runNow
  | scheduled
deriving Repr, DecidableEq

/-- The `_trigger` method: its guards in source order, together with the
state updates it performs itself.  The call to `_run` on the immediate
path is reported as the outcome `runNow`. -/
def trigger (cfg : BatcherConfig) (st : BState I) : BState I × TriggerOutcome :=
  if st.waiting && !st.waitTimeout then (st, .noop)
  else if belowThreshold cfg st then (st, .noop)
  else if jsGeMax st.inputQueue.length cfg.maxBatchSize || st.immediateCount != 0 then
    ({ st with waitTimeout := false, waiting := true }, .runNow)
  else if st.waiting then (st, .noop)
  else ({ st with waiting := true, waitTimeout := true }, .scheduled)

/-- Number of elements removed by `splice(0, this._maxBatchSize)`: the
whole array for `Infinity`, otherwise the count truncated to an integer
and clamped to the array length. -/
def spliceCount (m : Option ℚ) (len : Nat) : Nat :=
  match m with
  | none => len
  | some q => min len (Int.toNat ⌊q⌋)

/-- The batch extraction at the start of `_runImmediately`: splices up to
`maxBatchSize` entries off the front of both queues, applies
`this._immediateCount = Math.max(0, this._immediateCount - inputs.length)`
when the immediate count is non-zero, and returns the batch inputs, the
batch slots, and the remaining state. -/
def dequeueBatch (cfg : BatcherConfig) (st : BState I) :
    List I × List Nat × BState I :=
  let k := spliceCount cfg.maxBatchSize st.inputQueue.length
  let inputs := st.inputQueue.take k
  let outputPromises := st.outputQueue.take k
  (inputs, outputPromises,
    { st with
      inputQueue := st.inputQueue.drop k
      outputQueue := st.outputQueue.drop k
      immediateCount :=
        if st.immediateCount != 0 then st.immediateCount - inputs.length
        else st.immediateCount })

/-- One element of the array returned by the batching function, as the
distribution loop discriminates it: the RETRY token, an `Error` instance,
or an ordinary output value. -/
inductive BatchingResult (O E : Type) where
  | retry
  | err (e : E)
  | value (v : O)
deriving Repr, DecidableEq

/-- Why a result slot was rejected: with an error value coming from
outside (a per-item `Error` in the outputs, a rejection of the batching
function's promise, or a delay-function error), or with an `Error` the
batcher itself constructed, identified by its message. -/
inductive RejectReason (E : Type) where
  | external (e : E)
  | internal (msg : String)
deriving Repr, DecidableEq

/-- Settling a result slot: `deferred.resolve(v)` or `deferred.reject(e)`. -/
inductive Settlement (O E : Type) where
  | resolved (v : O)
  | rejected (r : RejectReason E)
deriving Repr, DecidableEq

/-- Accumulator of the result-distribution loop: the settlement events it
issues (in loop order) and the `retryInputs`/`retryPromises` arrays. -/
structure DistAcc (I O E : Type) where
  settledEvents : List (Nat × Settlement O E)
  retryInputs : List I
  retrySlots : List Nat
deriving Repr, DecidableEq

/-- The per-position distribution loop of `_runImmediately`, in lockstep
over the outputs, the batch inputs and the batch slots (the code runs it
only after checking `outputs.length === outputPromises.length`, and the
splice produced `inputs` and `outputPromises` of equal length): a RETRY
token collects the input and slot for re-queuing, an `Error` rejects the
slot, anything else resolves it. -/
def distribute : List (BatchingResult O E) → List I → List Nat → DistAcc I O E
  | .retry :: os, i :: is, s :: ss =>
    let r := distribute os is ss
    { r with retryInputs := i :: r.retryInputs, retrySlots := s :: r.retrySlots }
  | .err e :: os, _ :: is, s :: ss =>
    let r := distribute os is ss
    { r with settledEvents := (s, .rejected (.external e)) :: r.settledEvents }
  | .value v :: os, _ :: is, s :: ss =>
    let r := distribute os is ss
    { r with settledEvents := (s, .resolved v) :: r.settledEvents }
  | _, _, _ => ⟨[], [], []⟩

/-- The retry re-queuing step after the distribution loop: when any
requests were collected for retry, bump the immediate count if it is
non-zero and `unshift` the retried inputs and slots onto the front of the
pending queues. -/
def applyRetry (acc : DistAcc I O E) (st : BState I) : BState I :=
  if acc.retrySlots.length != 0 then
    { st with
      immediateCount :=
        if st.immediateCount != 0 then st.immediateCount + acc.retrySlots.length
        else st.immediateCount
      inputQueue := acc.retryInputs ++ st.inputQueue
      outputQueue := acc.retrySlots ++ st.outputQueue }
  else st

/-- How the awaited batching-function result presents itself to the
distribution code: the promise rejected (or the function threw
synchronously), it resolved to a non-array value, or it resolved to an
array of results. -/
inductive AwaitedResult (O E : Type) where
  | rejected (e : E)
  | resolvedNonArray
  | resolvedArray (outs : List (BatchingResult O E))

/-- Message of the `Error` thrown when the batching function does not
return an array. -/
def arrayErrorMsg : String := "batchingFunction must return an array"

/-- Message of the `Error` thrown when the output array's length differs
from the batch's input length. -/
def lengthErrorMsg : String :=
  "batchingFunction output length does not equal the input length"

/-- The post-await portion of `_runImmediately` (the `try`/`catch` around
the distribution): a rejection or structural violation rejects every slot
of the batch with the same error; otherwise the results are distributed
and retries re-queued.  Returns the settlement events and the updated
state. -/
def settleBatch (r : AwaitedResult O E) (inputs : List I) (slots : List Nat)
    (st : BState I) : List (Nat × Settlement O E) × BState I :=
  match r with
  | .rejected e => (slots.map fun s => (s, .rejected (.external e)), st)
  | .resolvedNonArray =>
    (slots.map fun s => (s, .rejected (.internal arrayErrorMsg)), st)
  | .resolvedArray outs =>
    if outs.length != slots.length then
      (slots.map fun s => (s, .rejected (.internal lengthErrorMsg)), st)
    else
      let acc := distribute outs inputs slots
      (acc.settledEvents, applyRetry acc st)

/-- The `catch` branch of the delay-function promise in `_run`: empties
`_inputQueue`, splices out the entire `_outputQueue` rejecting every slot
with the delay error, and clears `_waiting`.  Returns the settlement
events and the aborted state. -/
def delayRejectAbort (e : E) (st : BState I) :
    List (Nat × Settlement O E) × BState I :=
  (st.outputQueue.map fun s => (s, .rejected (.external e)),
   { st with inputQueue := [], outputQueue := [], waiting := false })

/-- A suspended continuation of the batcher: a committed call to `_run`
not yet executed, a pending delay-function promise inside `_run`, or a
dispatched batch awaiting the batching function's result. -/
inductive BTask (I : Type) where
  | runPending
  | delayWait
  | inFlight (inputs : List I) (slots : List Nat)

/-- Whole-system state: the batcher's fields, the suspended
continuations, the log of slot settlements so far, and the next fresh
slot identifier. -/
structure BSys (I O E : Type) where
  st : BState I
  tasks : List (BTask I)
  settledLog : List (Nat × Settlement O E)
  nextSlot : Nat

/-- Replace the task list (used when a step consumes a task). -/
def withTasks (sys : BSys I O E) (ts : List (BTask I)) : BSys I O E :=
  { sys with tasks := ts }

/-- Run `_trigger` on the system: apply its state updates, and record a
committed immediate run as a pending `_run` task. -/
def applyTrigger (cfg : BatcherConfig) (sys : BSys I O E) : BSys I O E :=
  match trigger cfg sys.st with
  | (st', .runNow) => { sys with st := st', tasks := sys.tasks ++ [.runPending] }
  | (st', _) => { sys with st := st' }

/-- The `getResult(input)` method: appends the input and a fresh result
slot at the same index of the two queues, then invokes `_trigger`; the
fresh slot's awaitable is what the caller receives. -/
def doGetResult (cfg : BatcherConfig) (i : I) (sys : BSys I O E) : BSys I O E :=
  applyTrigger cfg
    { sys with
      st := { sys.st with
              inputQueue := sys.st.inputQueue ++ [i]
              outputQueue := sys.st.outputQueue ++ [sys.nextSlot] }
      nextSlot := sys.nextSlot + 1 }

/-- The `send()` method: sets the immediate count to the current queue
length and invokes `_trigger`. -/
def doSend (cfg : BatcherConfig) (sys : BSys I O E) : BSys I O E :=
  applyTrigger cfg
    { sys with st := { sys.st with immediateCount := sys.st.inputQueue.length } }

/-- The queuing-delay timer firing: clears the timer handle and calls
`_run` (recorded as a pending task). -/
def doFireTimer (sys : BSys I O E) : BSys I O E :=
  { sys with st := { sys.st with waitTimeout := false },
             tasks := sys.tasks ++ [.runPending] }

/-- The body of `_runImmediately` up to its suspension point: splice the
batch off the queues, adjust the immediate count, clear `_waiting`,
increment the active count, dispatch the batch (recorded as an in-flight
task), and re-invoke `_trigger`. -/
def doRunImmediately (cfg : BatcherConfig) (sys : BSys I O E) : BSys I O E :=
  match dequeueBatch cfg sys.st with
  | (inputs, slots, st1) =>
    applyTrigger cfg
      { sys with
        st := { st1 with waiting := false
                         activePromiseCount := st1.activePromiseCount + 1 }
        tasks := sys.tasks ++ [.inFlight inputs slots] }

/-- The delay-function failure continuation of `_run`. -/
def doDelayAbort (e : E) (sys : BSys I O E) : BSys I O E :=
  match delayRejectAbort (O := O) e sys.st with
  | (evts, st') => { sys with st := st', settledLog := sys.settledLog ++ evts }

/-- The continuation after `await batchPromise` in `_runImmediately`,
followed by the `finally` block: settle the batch (distributing results
or failing it as a whole), decrement the active count, and re-invoke
`_trigger`. -/
def doCompleteBatch (cfg : BatcherConfig) (r : AwaitedResult O E)
    (inputs : List I) (slots : List Nat) (sys : BSys I O E) : BSys I O E :=
  match settleBatch r inputs slots sys.st with
  | (evts, st1) =>
    applyTrigger cfg
      { sys with
        st := { st1 with activePromiseCount := st1.activePromiseCount - 1 }
        settledLog := sys.settledLog ++ evts }

/-- One scheduler/environment step of the system.  The environment
chooses the stimuli (`getResult`, `send`), when armed timers fire, which
suspended continuation resumes next, whether the delay function suspends
the run and how its promise settles, and what the batching function's
awaitable produces; this over-approximates the JS event loop's
schedules. -/
inductive BStep (cfg : BatcherConfig) : BSys I O E → BSys I O E → Prop where
  | getResult (sys) (i : I) : BStep cfg sys (doGetResult cfg i sys)
  | send (sys) : BStep cfg sys (doSend cfg sys)
  | fireTimer (sys) : sys.st.waitTimeout = true → BStep cfg sys (doFireTimer sys)
  | execRunNoDelay (sys) (pre post : List (BTask I)) :
      sys.tasks = pre ++ .runPending :: post →
      BStep cfg sys (doRunImmediately cfg (withTasks sys (pre ++ post)))
  | execRunDelay (sys) (pre post : List (BTask I)) :
      sys.tasks = pre ++ .runPending :: post →
      BStep cfg sys (withTasks sys ((pre ++ post) ++ [.delayWait]))
  | delayResolve (sys) (pre post : List (BTask I)) :
      sys.tasks = pre ++ .delayWait :: post →
      BStep cfg sys (doRunImmediately cfg (withTasks sys (pre ++ post)))
  | delayReject (sys) (pre post : List (BTask I)) (e : E) :
      sys.tasks = pre ++ .delayWait :: post →
      BStep cfg sys (doDelayAbort e (withTasks sys (pre ++ post)))
  | completeBatch (sys) (pre post : List (BTask I)) (inputs : List I)
      (slots : List Nat) (r : AwaitedResult O E) :
      sys.tasks = pre ++ .inFlight inputs slots :: post →
      BStep cfg sys (doCompleteBatch cfg r inputs slots (withTasks sys (pre ++ post)))

/-- The freshly constructed system: empty queues, no suspended work, no
settlements. -/
def initSys (I O E : Type) : BSys I O E :=
  ⟨⟨[], [], false, false, 0, 0⟩, [], [], 0⟩

/-- States reachable from a freshly constructed batcher. -/
def Reachable (cfg : BatcherConfig) (sys : BSys I O E) : Prop :=
  Relation.ReflTransGen (BStep cfg) (initSys I O E) sys

/-- Modelled from the spec: the `idling` getter declared in `index.d.ts`
(its implementation is not among the source files).  Per the spec, it is
"true exactly when the queue is empty and no batch is active". -/
def idling (sys : BSys I O E) : Bool :=
  sys.st.inputQueue.isEmpty && decide (sys.st.activePromiseCount = 0)

/-- Modelled from the spec: the idle-tracking bookkeeping around
`idlePromise()` (implementation not among the source files).  `handle` is
the lazily created shared wait handle; resolved handles are logged and
discarded so a later idle transition creates a fresh one. -/
structure IdleTracker where
  handle : Option Nat
  nextHandle : Nat
  resolvedHandles : List Nat
deriving Repr, DecidableEq

/-- What a call to `idlePromise()` hands back: an already-resolved
awaitable, or the shared wait handle. -/
inductive IdleResult where
  | immediate
  | shared (h : Nat)
deriving Repr, DecidableEq

/-- Modelled from the spec: `idlePromise()` "returns an awaitable that
resolves immediately if already idling; otherwise returns (creating if
absent) a shared wait handle that is resolved by trigger evaluation the
next time the system becomes idle". -/
def idlePromiseOp (sys : BSys I O E) (t : IdleTracker) : IdleResult × IdleTracker :=
  if idling sys then (.immediate, t)
  else
    match t.handle with
    | some h => (.shared h, t)
    | none =>
      (.shared t.nextHandle,
       { t with handle := some t.nextHandle, nextHandle := t.nextHandle + 1 })

/-- Modelled from the spec: the idle check performed by trigger
evaluation — when the system has just become idle, resolve the shared
wait handle (if any) and discard it. -/
def idleTriggerUpdate (sys : BSys I O E) (t : IdleTracker) : IdleTracker :=
  if idling sys then
    match t.handle with
    | some h => { t with handle := none, resolvedHandles := t.resolvedHandles ++ [h] }
    | none => t
  else t

/-- Slots held by a suspended task (only in-flight batches hold result
slots). -/
def BTask.slotList : BTask I → List Nat
  | .inFlight _ ss => ss
  | _ => []

/-- Every result slot currently live in the system: pending in the queue
or carried by an in-flight batch. -/
def liveSlots (sys : BSys I O E) : List Nat :=
  sys.st.outputQueue ++ (sys.tasks.map BTask.slotList).join

/-- The multiset of all slots the system holds or has already settled. -/
def slotMultiset (sys : BSys I O E) : Multiset Nat :=
  (liveSlots sys : Multiset Nat) + ((sys.settledLog.map Prod.fst : List Nat) : Multiset Nat)

/-- Safety invariant of the system: no slot occurs twice across the
pending queue, the in-flight batches and the settlement log, and every
slot is below the freshness counter. -/
structure SlotInv (sys : BSys I O E) : Prop where
  nodup : (slotMultiset sys).Nodup
  lt : ∀ s ∈ slotMultiset sys, s < sys.nextSlot

/-! Helper lemmas about the result-distribution loop and the retry
re-queuing step. -/

theorem distribute_eq {I O E : Type} (outs : List (BatchingResult O E))
    (inputs : List I) (slots : List Nat)
    (h1 : outs.length = slots.length) (h2 : inputs.length = slots.length) :
    distribute outs inputs slots =
      { settledEvents := (slots.zip outs).filterMap (fun p => match p.2 with
          | .retry => none
          | .err e => some (p.1, Settlement.rejected (RejectReason.external e))
          | .value v => some (p.1, Settlement.resolved v)),
        retryInputs := (inputs.zip outs).filterMap (fun p => match p.2 with
          | .retry => some p.1
          | _ => none),
        retrySlots := (slots.zip outs).filterMap (fun p => match p.2 with
          | .retry => some p.1
          | _ => none) } := by
  induction slots generalizing outs inputs with
  | nil =>
    cases outs with
    | nil => cases inputs <;> simp_all [distribute]
    | cons o os => simp at h1
  | cons s ss ih =>
    cases outs with
    | nil => simp at h1
    | cons o os =>
      cases inputs with
      | nil => simp at h2
      | cons i is =>
        simp only [List.length_cons, Nat.succ_inj] at h1 h2
        cases o <;> simp_all [distribute, List.zip_cons_cons, List.filterMap_cons]

theorem retry_slot_unsettled {I O E : Type} (outs : List (BatchingResult O E))
    (inputs : List I) (slots : List Nat)
    (h1 : outs.length = slots.length) (h2 : inputs.length = slots.length)
    (j : ℕ) (hjs : j < slots.length) (hjo : j < outs.length)
    (hnd : slots.Nodup) (hr : outs.get ⟨j, hjo⟩ = .retry) :
    slots.get ⟨j, hjs⟩ ∉ (distribute outs inputs slots).settledEvents.map Prod.fst := by
  intro hmem
  rw [List.mem_map] at hmem
  obtain ⟨p, hp, hfst⟩ := hmem
  rw [distribute_eq outs inputs slots h1 h2] at hp
  simp only [List.mem_filterMap] at hp
  obtain ⟨⟨s, o⟩, hq, hf⟩ := hp
  obtain ⟨⟨k, hk⟩, hget⟩ := List.mem_iff_get.mp hq
  rw [List.get_zip] at hget
  have hk2 : k < slots.length := lt_of_lt_of_le hk (by simp [List.length_zip])
  have hk3 : k < outs.length := lt_of_lt_of_le hk (by simp [List.length_zip])
  have hs : slots.get ⟨k, hk2⟩ = s := by
    have h := congrArg Prod.fst hget
    simpa using h
  have ho : outs.get ⟨k, hk3⟩ = o := by
    have h := congrArg Prod.snd hget
    simpa using h
  have hps : p.1 = s ∧ o ≠ BatchingResult.retry := by
    cases o with
    | retry => simp at hf
    | err e =>
      dsimp only at hf
      rw [← Option.some_inj.mp hf]
      simp
    | value v =>
      dsimp only at hf
      rw [← Option.some_inj.mp hf]
      simp
  have hkj : (⟨k, hk2⟩ : Fin slots.length) = ⟨j, hjs⟩ := by
    apply List.nodup_iff_injective_get.mp hnd
    rw [hs, ← hps.1, hfst]
  apply hps.2
  rw [← ho, ← hr]
  have hfin : (⟨k, hk3⟩ : Fin outs.length) = ⟨j, hjo⟩ :=
    Fin.ext (by simpa using congrArg Fin.val hkj)
  rw [hfin]

theorem distribute_retry_lengths {I O E : Type} (outs : List (BatchingResult O E))
    (inputs : List I) (slots : List Nat) :
    (distribute outs inputs slots).retryInputs.length =
      (distribute outs inputs slots).retrySlots.length := by
  induction slots generalizing outs inputs with
  | nil => cases outs <;> cases inputs <;> simp [distribute]
  | cons s ss ih =>
    cases outs with
    | nil => simp [distribute]
    | cons o os =>
      cases inputs with
      | nil => cases o <;> simp [distribute]
      | cons i is => cases o <;> simp [distribute, ih]

theorem applyRetry_queues {I O E : Type} (acc : DistAcc I O E) (st : BState I)
    (hlen : acc.retryInputs.length = acc.retrySlots.length) :
    (applyRetry acc st).inputQueue = acc.retryInputs ++ st.inputQueue ∧
    (applyRetry acc st).outputQueue = acc.retrySlots ++ st.outputQueue ∧
    (applyRetry acc st).immediateCount =
      (if st.immediateCount ≠ 0 then st.immediateCount + acc.retrySlots.length
       else st.immediateCount) ∧
    (applyRetry acc st).waiting = st.waiting ∧
    (applyRetry acc st).waitTimeout = st.waitTimeout ∧
    (applyRetry acc st).activePromiseCount = st.activePromiseCount := by
  rcases acc with ⟨se, ri, rs⟩
  rcases rs with _ | ⟨r, rs⟩ <;>
    simp_all [applyRetry, List.length_eq_zero]

theorem zip_get_mem {α β : Type} (l : List α) (l2 : List β) (j : ℕ)
    (hj : j < l.length) (hj2 : j < l2.length) :
    (l.get ⟨j, hj⟩, l2.get ⟨j, hj2⟩) ∈ l.zip l2 := by
  have hz : j < (l.zip l2).length := by
    rw [List.length_zip]; omega
  have hg := @List.get_zip _ _ l l2 ⟨j, hz⟩
  rw [← hg]
  exact List.get_mem _ _ _

/-! Claim theorems. -/

/-- C1: when the batching function resolves to an array of the batch's
length, results are distributed position by position: RETRY positions
collect the input and slot (in order) for re-queuing at the front of the
pending queues ahead of later arrivals, error positions reject exactly
that slot with that error, other positions resolve exactly that slot
with the value, and a non-zero immediate-flush count is increased by the
number of retried entries. -/
theorem batch_results_distributed_positionally {I O E : Type}
    (outs : List (BatchingResult O E)) (inputs : List I) (slots : List Nat)
    (st : BState I)
    (h1 : outs.length = slots.length) (h2 : inputs.length = slots.length) :
    (distribute outs inputs slots).retryInputs =
        (inputs.zip outs).filterMap (fun p => match p.2 with
          | .retry => some p.1
          | _ => none) ∧
    (distribute outs inputs slots).retrySlots =
        (slots.zip outs).filterMap (fun p => match p.2 with
          | .retry => some p.1
          | _ => none) ∧
    (distribute outs inputs slots).settledEvents =
        (slots.zip outs).filterMap (fun p => match p.2 with
          | .retry => none
          | .err e => some (p.1, Settlement.rejected (RejectReason.external e))
          | .value v => some (p.1, Settlement.resolved v)) ∧
    (applyRetry (distribute outs inputs slots) st).inputQueue =
        (distribute outs inputs slots).retryInputs ++ st.inputQueue ∧
    (applyRetry (distribute outs inputs slots) st).outputQueue =
        (distribute outs inputs slots).retrySlots ++ st.outputQueue ∧
    (applyRetry (distribute outs inputs slots) st).immediateCount =
        (if st.immediateCount ≠ 0 then
          st.immediateCount + (distribute outs inputs slots).retrySlots.length
         else st.immediateCount) ∧
    (∀ j, ∀ hjs : j < slots.length, ∀ hjo : j < outs.length, ∀ e : E,
        outs.get ⟨j, hjo⟩ = .err e →
        (slots.get ⟨j, hjs⟩, Settlement.rejected (RejectReason.external e)) ∈
          (distribute outs inputs slots).settledEvents) ∧
    (∀ j, ∀ hjs : j < slots.length, ∀ hjo : j < outs.length, ∀ v : O,
        outs.get ⟨j, hjo⟩ = .value v →
        (slots.get ⟨j, hjs⟩, Settlement.resolved v) ∈
          (distribute outs inputs slots).settledEvents) ∧
    (slots.Nodup → ∀ j, ∀ hjs : j < slots.length, ∀ hjo : j < outs.length,
        outs.get ⟨j, hjo⟩ = .retry →
        slots.get ⟨j, hjs⟩ ∉
          (distribute outs inputs slots).settledEvents.map Prod.fst) := by
  have hde := distribute_eq outs inputs slots h1 h2
  have hrlen := distribute_retry_lengths outs inputs slots
  have haq := applyRetry_queues (distribute outs inputs slots) st hrlen
  refine ⟨by simp only [hde], by simp only [hde], by simp only [hde], haq.1,
    haq.2.1, haq.2.2.1, ?_, ?_, ?_⟩
  · intro j hjs hjo e hr
    rw [hde]
    exact List.mem_filterMap.mpr ⟨(slots.get ⟨j, hjs⟩, outs.get ⟨j, hjo⟩),
      zip_get_mem _ _ j hjs hjo, by rw [hr]⟩
  · intro j hjs hjo v hr
    rw [hde]
    exact List.mem_filterMap.mpr ⟨(slots.get ⟨j, hjs⟩, outs.get ⟨j, hjo⟩),
      zip_get_mem _ _ j hjs hjo, by rw [hr]⟩
  · intro hnd j hjs hjo hr
    exact retry_slot_unsettled outs inputs slots h1 h2 j hjs hjo hnd hr

/-- Witness for C1 at a concrete batch mixing a retry, an error and a
value. -/
theorem batch_results_distributed_positionally_witness :
    (applyRetry (distribute [BatchingResult.retry, BatchingResult.err 5,
        BatchingResult.value 7] [10, 11, 12] [20, 21, 22])
        (⟨[30], [23], false, false, 1, 2⟩ : BState ℕ)).inputQueue = [10, 30] ∧
    (applyRetry (distribute [BatchingResult.retry, BatchingResult.err 5,
        BatchingResult.value 7] [10, 11, 12] [20, 21, 22])
        (⟨[30], [23], false, false, 1, 2⟩ : BState ℕ)).outputQueue = [20, 23] ∧
    (applyRetry (distribute [BatchingResult.retry, BatchingResult.err 5,
        BatchingResult.value 7] [10, 11, 12] [20, 21, 22])
        (⟨[30], [23], false, false, 1, 2⟩ : BState ℕ)).immediateCount = 3 ∧
    ((21, Settlement.rejected (RejectReason.external 5)) ∈
      (distribute [BatchingResult.retry, BatchingResult.err 5,
        BatchingResult.value 7] [10, 11, 12] [20, 21, 22]).settledEvents) := by
  have h := batch_results_distributed_positionally (O := ℕ) (E := ℕ)
    [BatchingResult.retry, BatchingResult.err 5, BatchingResult.value 7]
    [10, 11, 12] [20, 21, 22] ⟨[30], [23], false, false, 1, 2⟩ (by decide) (by decide)
  refine ⟨?_, ?_, ?_, ?_⟩
  · rw [h.2.2.2.1]; decide
  · rw [h.2.2.2.2.1]; decide
  · rw [h.2.2.2.2.2.1]; decide
  · exact h.2.2.2.2.2.2.1 1 (by decide) (by decide) 5 (by decide)

theorem jsIndexGet_clamped (l : List ℚ) (a : Nat) (hne : l ≠ []) :
    jsIndexGet l (min (a : Int) ((l.length : Int) - 1)) =
      some (l.getD (min a (l.length - 1)) 0) := by
  have hlen : 1 ≤ l.length := List.length_pos.mpr hne
  have h0 : (0 : Int) ≤ min (a : Int) ((l.length : Int) - 1) := by
    apply le_min <;> omega
  have htn : (min (a : Int) ((l.length : Int) - 1)).toNat = min a (l.length - 1) := by
    omega
  have hlt2 : (min (a : Int) ((l.length : Int) - 1)).toNat < l.length := by omega
  rw [jsIndexGet, dif_pos ⟨h0, hlt2⟩, List.get_eq_getElem,
    ← List.getD_eq_getElem l 0 hlt2, htn]

/-- C2: trigger evaluation dispatches or schedules a batch only when the
pending-queue length has reached
`queuingThresholds[min(activeBatchCount, queuingThresholds.length - 1)]`;
below that clamped threshold it returns leaving the state unchanged. -/
theorem trigger_respects_queuing_threshold {I : Type} (cfg : BatcherConfig)
    (st : BState I) (hne : cfg.queuingThresholds ≠ []) :
    ((st.inputQueue.length : ℚ) <
        cfg.queuingThresholds.getD
          (min st.activePromiseCount (cfg.queuingThresholds.length - 1)) 0 →
      trigger cfg st = (st, .noop)) ∧
    ((trigger cfg st).2 ≠ .noop →
      cfg.queuingThresholds.getD
          (min st.activePromiseCount (cfg.queuingThresholds.length - 1)) 0 ≤
        (st.inputQueue.length : ℚ)) := by
  have hbt : belowThreshold cfg st =
      decide ((st.inputQueue.length : ℚ) <
        cfg.queuingThresholds.getD
          (min st.activePromiseCount (cfg.queuingThresholds.length - 1)) 0) := by
    rw [belowThreshold, jsIndexGet_clamped _ _ hne, jsNumLt]
  constructor
  · intro h
    rw [trigger, hbt]
    split
    · rfl
    · rw [if_pos (by simpa using h)]
  · intro h
    by_contra hc
    apply h
    rw [trigger, hbt] at *
    push_neg at hc
    split
    · rfl
    · rw [if_pos (by simpa using hc)]

/-- Witness for C2: with one queued request and a first threshold of 2,
the trigger is a no-op. -/
theorem trigger_respects_queuing_threshold_witness :
    (⟨none, 1, [2]⟩ : BatcherConfig).queuingThresholds ≠ [] ∧
    trigger ⟨none, 1, [2]⟩ (⟨[42], [0], false, false, 0, 0⟩ : BState ℕ) =
      (⟨[42], [0], false, false, 0, 0⟩, .noop) := by
  refine ⟨by decide, ?_⟩
  exact (trigger_respects_queuing_threshold ⟨none, 1, [2]⟩
    ⟨[42], [0], false, false, 0, 0⟩ (by decide)).1 (by decide)

/-- C9: trigger evaluation is idempotent — immediately re-invoking
`_trigger` on the state it produced is a no-op, so redundant invocations
never schedule or dispatch a second batch. -/
theorem trigger_idempotent {I : Type} (cfg : BatcherConfig) (st : BState I) :
    trigger cfg (trigger cfg st).1 = ((trigger cfg st).1, TriggerOutcome.noop) := by
  rcases st with ⟨iq, oq, w, t, a, im⟩
  simp only [trigger, belowThreshold]
  split_ifs <;> simp_all [belowThreshold]

/-- C4: the dispatched batch is exactly the oldest-first front of the
pending queue of length `min(queue length, maxBatchSize)`; the input and
result-slot arrays are spliced at the same indices (pairing preserved),
the remainder of both queues is the corresponding drop, and no batch
exceeds `maxBatchSize`. -/
theorem dispatched_batch_is_fifo_front {I : Type} (cfg : BatcherConfig)
    (st : BState I) (k? : Option ℕ)
    (hk : cfg.maxBatchSize = k?.map (fun k => (k : ℚ))) :
    (dequeueBatch cfg st).1 =
      st.inputQueue.take (match k? with
        | none => st.inputQueue.length
        | some k => min st.inputQueue.length k) ∧
    (dequeueBatch cfg st).2.1 =
      st.outputQueue.take (match k? with
        | none => st.inputQueue.length
        | some k => min st.inputQueue.length k) ∧
    ((dequeueBatch cfg st).1).zip (dequeueBatch cfg st).2.1 =
      (st.inputQueue.zip st.outputQueue).take (match k? with
        | none => st.inputQueue.length
        | some k => min st.inputQueue.length k) ∧
    (∀ k, k? = some k → (dequeueBatch cfg st).1.length ≤ k) ∧
    ((dequeueBatch cfg st).2.2).inputQueue =
      st.inputQueue.drop (match k? with
        | none => st.inputQueue.length
        | some k => min st.inputQueue.length k) ∧
    ((dequeueBatch cfg st).2.2).outputQueue =
      st.outputQueue.drop (match k? with
        | none => st.inputQueue.length
        | some k => min st.inputQueue.length k) := by
  have hn : spliceCount cfg.maxBatchSize st.inputQueue.length =
      (match k? with
        | none => st.inputQueue.length
        | some k => min st.inputQueue.length k) := by
    rcases k? with _ | k <;> simp_all [spliceCount]
  refine ⟨by simp [dequeueBatch, hn], by simp [dequeueBatch, hn],
    by simp [dequeueBatch, hn, List.zip, List.take_zipWith], ?_,
    by simp [dequeueBatch, hn], by simp [dequeueBatch, hn]⟩
  rintro k rfl
  have hs : spliceCount cfg.maxBatchSize st.inputQueue.length =
      min st.inputQueue.length k := by simpa using hn
  simp only [dequeueBatch, hs, List.length_take]
  omega

/-- Witness for C4: a queue of three with `maxBatchSize = 2` dispatches
the first two paired entries and keeps the third. -/
theorem dispatched_batch_is_fifo_front_witness :
    (dequeueBatch ⟨some 2, 1, [1]⟩
      (⟨[1, 2, 3], [10, 11, 12], false, false, 0, 0⟩ : BState ℕ)).1 = [1, 2] ∧
    (dequeueBatch ⟨some 2, 1, [1]⟩
      (⟨[1, 2, 3], [10, 11, 12], false, false, 0, 0⟩ : BState ℕ)).2.1 = [10, 11] ∧
    (dequeueBatch ⟨some 2, 1, [1]⟩
      (⟨[1, 2, 3], [10, 11, 12], false, false, 0, 0⟩ : BState ℕ)).1.length ≤ 2 ∧
    (dequeueBatch ⟨some 2, 1, [1]⟩
      (⟨[1, 2, 3], [10, 11, 12], false, false, 0, 0⟩ : BState ℕ)).2.2.inputQueue
      = [3] := by
  have h := dispatched_batch_is_fifo_front (I := ℕ) ⟨some 2, 1, [1]⟩
    ⟨[1, 2, 3], [10, 11, 12], false, false, 0, 0⟩ (some 2) (by decide)
  refine ⟨?_, ?_, h.2.2.2.1 2 rfl, ?_⟩
  · rw [h.1]; decide
  · rw [h.2.1]; decide
  · rw [h.2.2.2.2.1]; decide

/-- C5: a non-array batching-function result rejects every slot of the
batch with the error "batchingFunction must return an array"; an array of
the wrong length rejects every slot with "batchingFunction output length
does not equal the input length"; in both cases all slots of the batch
get the same error and every slot is settled. -/
theorem batch_structural_failure_rejects_all {I O E : Type}
    (inputs : List I) (slots : List Nat) (st : BState I)
    (outs : List (BatchingResult O E)) (hlen : outs.length ≠ slots.length) :
    (settleBatch (O := O) (E := E) .resolvedNonArray inputs slots st).1 =
      slots.map (fun s =>
        (s, Settlement.rejected (RejectReason.internal
          "batchingFunction must return an array"))) ∧
    (settleBatch (O := O) (E := E) .resolvedNonArray inputs slots st).1.map Prod.fst
      = slots ∧
    (settleBatch (.resolvedArray outs) inputs slots st).1 =
      slots.map (fun s =>
        (s, Settlement.rejected (RejectReason.internal
          "batchingFunction output length does not equal the input length"))) ∧
    (settleBatch (.resolvedArray outs) inputs slots st).1.map Prod.fst = slots := by
  refine ⟨?_, ?_, ?_, ?_⟩ <;>
    simp [settleBatch, arrayErrorMsg, lengthErrorMsg, hlen, Function.comp_def]

/-- Witness for C5: an empty output array against a two-element batch
rejects both slots with the length error. -/
theorem batch_structural_failure_rejects_all_witness :
    ([] : List (BatchingResult ℕ ℕ)).length ≠ ([4, 5] : List ℕ).length ∧
    (settleBatch (O := ℕ) (E := ℕ) (.resolvedArray []) [1, 2] [4, 5]
        (⟨[], [], false, false, 0, 0⟩ : BState ℕ)).1 =
      [(4, Settlement.rejected (RejectReason.internal
          "batchingFunction output length does not equal the input length")),
       (5, Settlement.rejected (RejectReason.internal
          "batchingFunction output length does not equal the input length"))] := by
  refine ⟨by decide, ?_⟩
  rw [(batch_structural_failure_rejects_all [1, 2] [4, 5]
    ⟨[], [], false, false, 0, 0⟩ ([] : List (BatchingResult ℕ ℕ)) (by decide)).2.2.1]
  decide

/-- C6: a delay-function failure rejects every entry of the entire
pending queue with the delay error, empties both queues, clears the
waiting flag, and dispatches no batch for those entries. -/
theorem delay_error_rejects_entire_queue {I O E : Type} (e : E) (st : BState I)
    (sys : BSys I O E) :
    (delayRejectAbort (O := O) e st).2.inputQueue = [] ∧
    (delayRejectAbort (O := O) e st).2.outputQueue = [] ∧
    (delayRejectAbort (O := O) e st).2.waiting = false ∧
    (delayRejectAbort (O := O) e st).1 =
      st.outputQueue.map (fun s =>
        (s, Settlement.rejected (RejectReason.external e))) ∧
    (delayRejectAbort (O := O) e st).1.map Prod.fst = st.outputQueue ∧
    (doDelayAbort e sys).tasks = sys.tasks := by
  refine ⟨rfl, rfl, rfl, rfl, by simp [delayRejectAbort, Function.comp_def], rfl⟩

/-- C10: the delay-failure abort path changes only the two queue arrays
and the waiting flag — the immediate-flush and active-batch counters and
the timer handle are untouched — so a surviving non-zero immediate count
makes the next enqueued request dispatch immediately (trigger outcome
`runNow`, not a delayed schedule) once the threshold permits. -/
theorem delay_abort_frame {I O E : Type} (cfg : BatcherConfig) (e : E)
    (st : BState I) :
    (delayRejectAbort (O := O) (E := E) e st).2.immediateCount = st.immediateCount ∧
    (delayRejectAbort (O := O) (E := E) e st).2.activePromiseCount
      = st.activePromiseCount ∧
    (delayRejectAbort (O := O) (E := E) e st).2.waitTimeout = st.waitTimeout ∧
    (∀ i : I, ∀ slot : Nat,
      st.immediateCount ≠ 0 →
      belowThreshold cfg
        { (delayRejectAbort (O := O) (E := E) e st).2 with
          inputQueue := [i], outputQueue := [slot] } = false →
      (trigger cfg
        { (delayRejectAbort (O := O) (E := E) e st).2 with
          inputQueue := [i], outputQueue := [slot] }).2 = .runNow) := by
  refine ⟨rfl, rfl, rfl, ?_⟩
  intro i slot himm hbt
  simp only [delayRejectAbort] at hbt
  simp [trigger, delayRejectAbort, hbt, himm]

/-- Witness for C10: an immediate count of 2 survives the abort and makes
the next enqueued request run immediately under the default threshold. -/
theorem delay_abort_frame_witness :
    (2 : ℕ) ≠ 0 ∧
    belowThreshold ⟨none, 1, [1]⟩
      { (delayRejectAbort (O := ℕ) (E := ℕ) 0
          (⟨[], [], true, true, 0, 2⟩ : BState ℕ)).2 with
        inputQueue := [99], outputQueue := [7] } = false ∧
    (trigger ⟨none, 1, [1]⟩
      { (delayRejectAbort (O := ℕ) (E := ℕ) 0
          (⟨[], [], true, true, 0, 2⟩ : BState ℕ)).2 with
        inputQueue := [99], outputQueue := [7] }).2 = .runNow := by
  refine ⟨by decide, by decide, ?_⟩
  exact (delay_abort_frame ⟨none, 1, [1]⟩ 0
    (⟨[], [], true, true, 0, 2⟩ : BState ℕ)).2.2.2 99 7 (by decide) (by decide)

/-- Counterexample for C8: the constructor's error for an empty
`queuingThresholds` carries the message prefixed with "options.", not
the bare message the claim states. -/
theorem construct_message_counterexample :
    Batcher.construct ⟨none, none, some []⟩ =
      Except.error "options.queuingThresholds must contain at least one number" ∧
    "options.queuingThresholds must contain at least one number" ≠
      "queuingThresholds must contain at least one number" := by
  exact ⟨rfl, by decide⟩

/-- C8 (amended): the constructor throws exactly when `queuingThresholds`
is provided empty, some provided threshold is below 1, `maxBatchSize` is
provided below 1, or `queuingDelay` is provided negative — with the
messages "options.queuingThresholds must contain at least one number",
"options.queuingThresholds must only contain numbers greater than 0",
"options.maxBatchSize must be greater than 0" and
"options.queuingDelay must be greater than or equal to 0" respectively,
checked in that order; it is a pure function with no other effect. -/
theorem construct_validation (o : BatcherOptions) :
    ((∃ e, Batcher.construct o = .error e) ↔
      (o.queuingThresholds = some [] ∨
       (∃ ts, o.queuingThresholds = some ts ∧ ∃ n ∈ ts, n < 1) ∨
       (∃ m, o.maxBatchSize = some m ∧ m < 1) ∨
       (∃ d, o.queuingDelay = some d ∧ d < 0))) ∧
    (o.queuingThresholds = some [] →
      Batcher.construct o =
        .error "options.queuingThresholds must contain at least one number") ∧
    (∀ ts, o.queuingThresholds = some ts → ts ≠ [] → (∃ n ∈ ts, n < 1) →
      Batcher.construct o =
        .error "options.queuingThresholds must only contain numbers greater than 0") ∧
    ((∀ ts, o.queuingThresholds = some ts → ts ≠ [] ∧ (∀ n ∈ ts, 1 ≤ n)) →
      ∀ m, o.maxBatchSize = some m → m < 1 →
      Batcher.construct o = .error "options.maxBatchSize must be greater than 0") ∧
    ((∀ ts, o.queuingThresholds = some ts → ts ≠ [] ∧ (∀ n ∈ ts, 1 ≤ n)) →
      (∀ m, o.maxBatchSize = some m → 1 ≤ m) →
      ∀ d, o.queuingDelay = some d → d < 0 →
      Batcher.construct o =
        .error "options.queuingDelay must be greater than or equal to 0") := by
  obtain ⟨mb, qd, qt⟩ := o
  refine ⟨?_, ?_, ?_, ?_, ?_⟩ <;>
  · rcases qt with _ | ts <;> rcases mb with _ | m <;> rcases qd with _ | d <;>
      simp_all [Batcher.construct, Except.bind, List.length_eq_zero,
        List.any_eq_true, bind, pure, Except.pure] <;>
      split_ifs <;> simp_all

/-- Witness for C8: `maxBatchSize = 0` with no thresholds provided is
rejected with the maxBatchSize message. -/
theorem construct_validation_witness :
    (∃ e, Batcher.construct ⟨some 0, none, none⟩ = .error e) ∧
    Batcher.construct ⟨some 0, none, none⟩ =
      .error "options.maxBatchSize must be greater than 0" := by
  have h := construct_validation ⟨some 0, none, none⟩
  refine ⟨h.1.mpr (Or.inr (Or.inr (Or.inl ⟨0, rfl, by norm_num⟩))), ?_⟩
  exact h.2.2.2.1 (fun ts hts => by simp at hts) 0 rfl (by norm_num)

/-! Slot-accounting invariant of the small-step system, and the per-step
preservation lemmas behind it. -/


theorem trigger_preserves_queues {I : Type} (cfg : BatcherConfig) (st : BState I) :
    (trigger cfg st).1.inputQueue = st.inputQueue ∧
    (trigger cfg st).1.outputQueue = st.outputQueue ∧
    (trigger cfg st).1.activePromiseCount = st.activePromiseCount ∧
    (trigger cfg st).1.immediateCount = st.immediateCount := by
  simp only [trigger]
  split_ifs <;> exact ⟨rfl, rfl, rfl, rfl⟩

theorem applyTrigger_fields {I O E : Type} (cfg : BatcherConfig) (sys : BSys I O E) :
    (applyTrigger cfg sys).st.outputQueue = sys.st.outputQueue ∧
    (applyTrigger cfg sys).st.inputQueue = sys.st.inputQueue ∧
    (applyTrigger cfg sys).settledLog = sys.settledLog ∧
    (applyTrigger cfg sys).nextSlot = sys.nextSlot ∧
    slotMultiset (applyTrigger cfg sys) = slotMultiset sys := by
  unfold applyTrigger
  rcases h : trigger cfg sys.st with ⟨st2, o⟩
  have hq := trigger_preserves_queues cfg sys.st
  rw [h] at hq
  cases o <;>
    simp_all [slotMultiset, liveSlots, BTask.slotList]

theorem distribute_slot_le {I O E : Type} (outs : List (BatchingResult O E))
    (inputs : List I) (slots : List Nat) :
    (((distribute outs inputs slots).settledEvents.map Prod.fst : List Nat) : Multiset Nat)
      + ((distribute outs inputs slots).retrySlots : Multiset Nat)
      ≤ (slots : Multiset Nat) := by
  induction slots generalizing outs inputs with
  | nil => cases outs <;> cases inputs <;> simp [distribute]
  | cons s ss ih =>
    cases outs with
    | nil => simp [distribute]
    | cons o os =>
      cases inputs with
      | nil => cases o <;> simp [distribute]
      | cons i is =>
        cases o with
        | retry =>
          simp only [distribute, ← Multiset.cons_coe, Multiset.add_cons]
          exact Multiset.cons_le_cons s (ih os is)
        | err e =>
          simp only [distribute, List.map_cons, ← Multiset.cons_coe,
            Multiset.cons_add]
          exact Multiset.cons_le_cons s (ih os is)
        | value v =>
          simp only [distribute, List.map_cons, ← Multiset.cons_coe,
            Multiset.cons_add]
          exact Multiset.cons_le_cons s (ih os is)

theorem SlotInv.of_le {I O E : Type} {sys2 sys : BSys I O E}
    (hle : slotMultiset sys2 ≤ slotMultiset sys)
    (hn : sys.nextSlot ≤ sys2.nextSlot) (inv : SlotInv sys) : SlotInv sys2 :=
  ⟨Multiset.nodup_of_le hle inv.nodup,
   fun s hs => lt_of_lt_of_le (inv.lt s (Multiset.mem_of_le hle hs)) hn⟩

theorem slotMultiset_doSend {I O E : Type} (cfg : BatcherConfig) (sys : BSys I O E) :
    slotMultiset (doSend cfg sys) = slotMultiset sys ∧
    (doSend cfg sys).nextSlot = sys.nextSlot := by
  have h := applyTrigger_fields cfg
    { sys with st := { sys.st with immediateCount := sys.st.inputQueue.length } }
  refine ⟨?_, ?_⟩
  · rw [doSend, h.2.2.2.2]
    simp [slotMultiset, liveSlots]
  · rw [doSend, h.2.2.2.1]

theorem slotMultiset_doFireTimer {I O E : Type} (sys : BSys I O E) :
    slotMultiset (doFireTimer sys) = slotMultiset sys ∧
    (doFireTimer sys).nextSlot = sys.nextSlot := by
  refine ⟨?_, rfl⟩
  simp [slotMultiset, doFireTimer, liveSlots, BTask.slotList]

theorem slotMultiset_doGetResult {I O E : Type} (cfg : BatcherConfig) (i : I)
    (sys : BSys I O E) :
    slotMultiset (doGetResult cfg i sys) = sys.nextSlot ::ₘ slotMultiset sys ∧
    (doGetResult cfg i sys).nextSlot = sys.nextSlot + 1 := by
  have h := applyTrigger_fields cfg
    { sys with
      st := { sys.st with
              inputQueue := sys.st.inputQueue ++ [i]
              outputQueue := sys.st.outputQueue ++ [sys.nextSlot] }
      nextSlot := sys.nextSlot + 1 }
  refine ⟨?_, ?_⟩
  · rw [doGetResult, h.2.2.2.2]
    simp only [slotMultiset, liveSlots]
    simp only [← Multiset.coe_add, List.append_assoc]
    have hsing : (([sys.nextSlot] : List Nat) : Multiset Nat) = {sys.nextSlot} := rfl
    rw [hsing, ← Multiset.singleton_add]
    abel
  · rw [doGetResult, h.2.2.2.1]

theorem slotMultiset_doRunImmediately {I O E : Type} (cfg : BatcherConfig)
    (sys : BSys I O E) :
    slotMultiset (doRunImmediately cfg sys) = slotMultiset sys ∧
    (doRunImmediately cfg sys).nextSlot = sys.nextSlot := by
  simp only [doRunImmediately, dequeueBatch]
  constructor
  · rw [(applyTrigger_fields cfg _).2.2.2.2]
    simp only [slotMultiset, liveSlots, List.map_append, List.join_append,
      List.map_cons, BTask.slotList, List.join_cons, List.join_nil,
      List.append_nil, ← Multiset.coe_add]
    have hsplit :
        ((sys.st.outputQueue.take
            (spliceCount cfg.maxBatchSize sys.st.inputQueue.length) : List Nat) :
          Multiset Nat) +
          ↑(sys.st.outputQueue.drop
            (spliceCount cfg.maxBatchSize sys.st.inputQueue.length)) =
          ↑sys.st.outputQueue := by
      rw [Multiset.coe_add, List.take_append_drop]
    rw [← hsplit]
    abel
  · rw [(applyTrigger_fields cfg _).2.2.2.1]

theorem slotMultiset_doDelayAbort {I O E : Type} (e : E) (sys : BSys I O E) :
    slotMultiset (doDelayAbort e sys) = slotMultiset sys ∧
    (doDelayAbort e sys).nextSlot = sys.nextSlot := by
  simp only [doDelayAbort, delayRejectAbort]
  constructor
  · simp only [slotMultiset, liveSlots, List.map_append, List.map_map,
      Function.comp_def, List.nil_append, ← Multiset.coe_add]
    rw [show (sys.st.outputQueue.map fun x => x) = sys.st.outputQueue from
      List.map_id sys.st.outputQueue]
    abel
  · trivial

theorem slotMultiset_withTasks_split {I O E : Type} (sys : BSys I O E)
    (pre post : List (BTask I)) (t : BTask I) (h : sys.tasks = pre ++ t :: post) :
    slotMultiset sys =
      slotMultiset (withTasks sys (pre ++ post)) + (BTask.slotList t : Multiset Nat) := by
  simp only [slotMultiset, liveSlots, withTasks, h, List.map_append,
    List.join_append, List.map_cons, List.join_cons, ← Multiset.coe_add]
  abel

theorem mset_shuffle_le {α : Type} (a b c d e f : Multiset α)
    (h : d + e ≤ f) : e + a + b + (c + d) ≤ a + b + c + f := by
  calc e + a + b + (c + d) = a + b + c + (d + e) := by abel
    _ ≤ a + b + c + f := add_le_add_left h _

theorem slotMultiset_doCompleteBatch {I O E : Type} (cfg : BatcherConfig)
    (r : AwaitedResult O E) (inputs : List I) (slots : List Nat) (sys : BSys I O E) :
    slotMultiset (doCompleteBatch cfg r inputs slots sys) ≤
      slotMultiset sys + (slots : Multiset Nat) ∧
    (doCompleteBatch cfg r inputs slots sys).nextSlot = sys.nextSlot := by
  simp only [doCompleteBatch, settleBatch]
  cases r with
  | rejected e =>
    refine ⟨?_, by rw [(applyTrigger_fields cfg _).2.2.2.1]⟩
    rw [(applyTrigger_fields cfg _).2.2.2.2]
    apply le_of_eq
    simp only [slotMultiset, liveSlots, List.map_append, List.map_map,
      Function.comp_def, ← Multiset.coe_add]
    rw [show (slots.map fun x => x) = slots from List.map_id slots]
    abel
  | resolvedNonArray =>
    refine ⟨?_, by rw [(applyTrigger_fields cfg _).2.2.2.1]⟩
    rw [(applyTrigger_fields cfg _).2.2.2.2]
    apply le_of_eq
    simp only [slotMultiset, liveSlots, List.map_append, List.map_map,
      Function.comp_def, ← Multiset.coe_add]
    rw [show (slots.map fun x => x) = slots from List.map_id slots]
    abel
  | resolvedArray outs =>
    by_cases hl : (outs.length != slots.length) = true
    · simp only [hl, if_true]
      refine ⟨?_, by rw [(applyTrigger_fields cfg _).2.2.2.1]⟩
      rw [(applyTrigger_fields cfg _).2.2.2.2]
      apply le_of_eq
      simp only [slotMultiset, liveSlots, List.map_append, List.map_map,
        Function.comp_def, ← Multiset.coe_add]
      rw [show (slots.map fun x => x) = slots from List.map_id slots]
      abel
    · have hl2 : (outs.length != slots.length) = false := by simpa using hl
      simp only [hl2, Bool.false_eq_true, if_false]
      refine ⟨?_, by rw [(applyTrigger_fields cfg _).2.2.2.1]⟩
      rw [(applyTrigger_fields cfg _).2.2.2.2]
      have hrq := (applyRetry_queues (distribute outs inputs slots) sys.st
        (distribute_retry_lengths outs inputs slots)).2.1
      simp only [slotMultiset, liveSlots, hrq, List.map_append,
        ← Multiset.coe_add]
      exact mset_shuffle_le _ _ _ _ _ _ (distribute_slot_le outs inputs slots)

theorem slotInv_step {I O E : Type} {cfg : BatcherConfig} {sys sys2 : BSys I O E}
    (h : BStep cfg sys sys2) (inv : SlotInv sys) : SlotInv sys2 := by
  cases h with
  | getResult sys i =>
    have hm := slotMultiset_doGetResult cfg i sys
    refine ⟨?_, ?_⟩
    · rw [hm.1]
      exact Multiset.Nodup.cons (fun hmem => lt_irrefl _ (inv.lt _ hmem)) inv.nodup
    · intro s hs
      rw [hm.1] at hs
      rw [hm.2]
      rcases Multiset.mem_cons.mp hs with rfl | hs2
      · omega
      · have := inv.lt s hs2
        omega
  | send sys =>
    exact SlotInv.of_le (le_of_eq (slotMultiset_doSend cfg sys).1)
      (le_of_eq (slotMultiset_doSend cfg sys).2.symm) inv
  | fireTimer sys ht =>
    exact SlotInv.of_le (le_of_eq (slotMultiset_doFireTimer sys).1)
      (le_of_eq (slotMultiset_doFireTimer sys).2.symm) inv
  | execRunNoDelay sys pre post htasks =>
    have hsplit := slotMultiset_withTasks_split sys pre post _ htasks
    have hrest : slotMultiset (withTasks sys (pre ++ post)) = slotMultiset sys := by
      rw [hsplit]
      simp [BTask.slotList]
    have hm := slotMultiset_doRunImmediately cfg (withTasks sys (pre ++ post))
    exact SlotInv.of_le (le_of_eq (hm.1.trans hrest))
      (le_of_eq (hm.2.trans rfl).symm) inv
  | execRunDelay sys pre post htasks =>
    have hsplit := slotMultiset_withTasks_split sys pre post _ htasks
    have h2 : slotMultiset (withTasks sys ((pre ++ post) ++ [BTask.delayWait]))
        = slotMultiset sys := by
      rw [hsplit]
      simp [slotMultiset, liveSlots, withTasks, BTask.slotList]
    exact SlotInv.of_le (le_of_eq h2) le_rfl inv
  | delayResolve sys pre post htasks =>
    have hsplit := slotMultiset_withTasks_split sys pre post _ htasks
    have hrest : slotMultiset (withTasks sys (pre ++ post)) = slotMultiset sys := by
      rw [hsplit]
      simp [BTask.slotList]
    have hm := slotMultiset_doRunImmediately cfg (withTasks sys (pre ++ post))
    exact SlotInv.of_le (le_of_eq (hm.1.trans hrest))
      (le_of_eq (hm.2.trans rfl).symm) inv
  | delayReject sys pre post e htasks =>
    have hsplit := slotMultiset_withTasks_split sys pre post _ htasks
    have hrest : slotMultiset (withTasks sys (pre ++ post)) = slotMultiset sys := by
      rw [hsplit]
      simp [BTask.slotList]
    have hm := slotMultiset_doDelayAbort (O := O) e (withTasks sys (pre ++ post))
    exact SlotInv.of_le (le_of_eq (hm.1.trans hrest))
      (le_of_eq (hm.2.trans rfl).symm) inv
  | completeBatch sys pre post inputs slots r htasks =>
    have hsplit := slotMultiset_withTasks_split sys pre post _ htasks
    have hm := slotMultiset_doCompleteBatch cfg r inputs slots
      (withTasks sys (pre ++ post))
    have hle : slotMultiset (doCompleteBatch cfg r inputs slots
        (withTasks sys (pre ++ post))) ≤ slotMultiset sys := by
      rw [hsplit]
      exact hm.1
    have hn2 : (doCompleteBatch cfg r inputs slots
        (withTasks sys (pre ++ post))).nextSlot = sys.nextSlot := hm.2
    exact SlotInv.of_le hle (le_of_eq hn2.symm) inv

theorem slotInv_reachable {I O E : Type} (cfg : BatcherConfig) (sys : BSys I O E)
    (h : Reachable cfg sys) : SlotInv sys := by
  unfold Reachable at h
  induction h with
  | refl =>
    refine ⟨?_, ?_⟩ <;> simp [slotMultiset, liveSlots, initSys]
  | tail hR hstep ih => exact slotInv_step hstep ih

/-- C3: over any reachable execution of the system, every result slot is
settled at most once (the settlement log never repeats a slot);
`getResult` always returns, handing back a fresh slot appended to the
queue; and a slot whose batch output is the RETRY token receives no
settlement from that distribution — the token is never delivered. -/
theorem result_slots_settled_at_most_once {I O E : Type} (cfg : BatcherConfig)
    (sys : BSys I O E) (h : Reachable cfg sys) :
    (sys.settledLog.map Prod.fst).Nodup ∧
    (∀ i : I, (doGetResult cfg i sys).nextSlot = sys.nextSlot + 1 ∧
       sys.nextSlot ∈ (doGetResult cfg i sys).st.outputQueue) ∧
    (∀ (outs : List (BatchingResult O E)) (inputs : List I) (slots : List Nat),
       outs.length = slots.length → inputs.length = slots.length →
       slots.Nodup → ∀ j, ∀ hjs : j < slots.length, ∀ hjo : j < outs.length,
       outs.get ⟨j, hjo⟩ = .retry →
       slots.get ⟨j, hjs⟩ ∉
         (distribute outs inputs slots).settledEvents.map Prod.fst) := by
  have inv := slotInv_reachable cfg sys h
  refine ⟨?_, ?_, ?_⟩
  · have hle : ((sys.settledLog.map Prod.fst : List Nat) : Multiset Nat) ≤
        slotMultiset sys := le_add_self
    exact Multiset.coe_nodup.mp (Multiset.nodup_of_le hle inv.nodup)
  · intro i
    refine ⟨(slotMultiset_doGetResult cfg i sys).2, ?_⟩
    rw [doGetResult, (applyTrigger_fields cfg _).1]
    simp
  · intro outs inputs slots h1 h2 hnd j hjs hjo hr
    exact retry_slot_unsettled outs inputs slots h1 h2 j hjs hjo hnd hr

/-- Witness for C3 on a concrete one-step execution. -/
theorem result_slots_settled_at_most_once_witness :
    ((doGetResult ⟨none, 1, [1]⟩ 5 (initSys ℕ ℕ ℕ)).settledLog.map Prod.fst).Nodup ∧
    (0 : ℕ) ∈ (doGetResult ⟨none, 1, [1]⟩ 5 (initSys ℕ ℕ ℕ)).st.outputQueue := by
  have h := result_slots_settled_at_most_once ⟨none, 1, [1]⟩
    (doGetResult ⟨none, 1, [1]⟩ 5 (initSys ℕ ℕ ℕ))
    (Relation.ReflTransGen.single (BStep.getResult _ 5))
  have h0 := result_slots_settled_at_most_once ⟨none, 1, [1]⟩ (initSys ℕ ℕ ℕ)
    Relation.ReflTransGen.refl
  exact ⟨h.1, (h0.2.1 5).2⟩


/-- C7 (modelled from the spec; the `idling`/`idlePromise` implementation
is declared in `index.d.ts` but absent from the source files): `idling`
is true exactly when the pending queue is empty and no batch is active,
true for a fresh batcher and false immediately after `getResult`;
`idlePromise` resolves immediately when already idling and otherwise
hands out the shared wait handle (successive calls share it), which the
trigger-time idle check resolves and discards only when the system is
idle. -/
theorem idle_tracking_spec {I O E : Type} (cfg : BatcherConfig)
    (sys : BSys I O E) (t : IdleTracker) :
    (idling sys = true ↔
      (sys.st.inputQueue = [] ∧ sys.st.activePromiseCount = 0)) ∧
    idling (initSys I O E) = true ∧
    (∀ i : I, idling (doGetResult cfg i sys) = false) ∧
    (idling sys = true → idlePromiseOp sys t = (.immediate, t)) ∧
    (idling sys = false →
      ∃ hdl, (idlePromiseOp sys t).1 = .shared hdl ∧
        (idlePromiseOp sys ((idlePromiseOp sys t).2)).1 = .shared hdl) ∧
    ((idleTriggerUpdate sys t).resolvedHandles ≠ t.resolvedHandles →
      idling sys = true) ∧
    (idling sys = true → ∀ hdl, t.handle = some hdl →
      (idleTriggerUpdate sys t).resolvedHandles = t.resolvedHandles ++ [hdl] ∧
      (idleTriggerUpdate sys t).handle = none) := by
  refine ⟨?_, rfl, ?_, ?_, ?_, ?_, ?_⟩
  · simp [idling, List.isEmpty_iff]
  · intro i
    have hq := (applyTrigger_fields cfg
      { sys with
        st := { sys.st with
                inputQueue := sys.st.inputQueue ++ [i]
                outputQueue := sys.st.outputQueue ++ [sys.nextSlot] }
        nextSlot := sys.nextSlot + 1 }).2.1
    rw [idling, doGetResult, hq]
    simp
  · intro h
    simp [idlePromiseOp, h]
  · intro h
    rcases ht : t.handle with _ | hdl
    · refine ⟨t.nextHandle, ?_, ?_⟩ <;> simp [idlePromiseOp, h, ht]
    · refine ⟨hdl, ?_, ?_⟩ <;> simp [idlePromiseOp, h, ht]
  · intro h
    by_contra hc
    apply h
    simp only [Bool.not_eq_true] at hc
    simp [idleTriggerUpdate, hc]
  · intro h hdl ht
    simp [idleTriggerUpdate, h, ht]

/-- Witness for C7 at a fresh system and a concrete non-idle system. -/
theorem idle_tracking_spec_witness :
    idling (initSys ℕ ℕ ℕ) = true ∧
    (∃ hdl, (idlePromiseOp
        (⟨⟨[1], [0], false, false, 0, 0⟩, [], [], 1⟩ : BSys ℕ ℕ ℕ)
        ⟨none, 0, []⟩).1 = .shared hdl ∧
      (idlePromiseOp (⟨⟨[1], [0], false, false, 0, 0⟩, [], [], 1⟩ : BSys ℕ ℕ ℕ)
        ((idlePromiseOp (⟨⟨[1], [0], false, false, 0, 0⟩, [], [], 1⟩ : BSys ℕ ℕ ℕ)
          ⟨none, 0, []⟩).2)).1 = .shared hdl) := by
  have h := idle_tracking_spec ⟨none, 1, [1]⟩
    (⟨⟨[1], [0], false, false, 0, 0⟩, [], [], 1⟩ : BSys ℕ ℕ ℕ) ⟨none, 0, []⟩
  exact ⟨h.2.1, h.2.2.2.2.1 (by decide)⟩
